import Mathlib

/-!
Verification of the row-wise equality/containment and hashing engine of the
cudf search subsystem.  Definitions are shallow embeddings of the C++ sources:
`search/contains.cu` (scalar and batched column containment),
`search/detail/contains_nested.cu` (hash-table-backed nested containment) and
`lists/contains.cu` (list-specific `index_of` / `contains` / `contains_nulls`).
Machine column data is modelled as Lean lists; per-element validity bits are
kept explicitly, mirroring cudf null masks.
-/

namespace CudfSearch

/-- A leaf (non-nested) column element: stored payload plus validity bit,
mirroring a cudf element together with its null-mask bit. -/
structure Elem where
  val : Int
  valid : Bool
deriving DecidableEq, Repr

/-- A leaf column: a sequence of elements, as exposed by `column_device_view`. -/
structure LeafColumn where
  elems : List Elem
deriving DecidableEq, Repr

/-- `column_view::size()`. -/
def LeafColumn.size (c : LeafColumn) : Nat := c.elems.length

/-- `column_view::is_empty()`. -/
def LeafColumn.isEmpty (c : LeafColumn) : Bool := c.elems.isEmpty

/-- `column_view::has_nulls()`: some row's validity bit is off. -/
def LeafColumn.hasNulls (c : LeafColumn) : Bool := c.elems.any (fun e => !e.valid)

/-- A scalar value with its validity flag, mirroring `cudf::scalar`. -/
structure ScalarVal where
  val : Int
  valid : Bool
deriving DecidableEq, Repr

/-- `cudf::detail::contains(column_view, scalar)` from `search/contains.cu`:
the empty-haystack and invalid-needle checks run before the type dispatcher;
the dispatched scan outcome is abstracted as the argument `dispatched`. -/
def containsScalar (haystack : LeafColumn) (needle : ScalarVal)
    (dispatched : Bool) : Bool :=
  if haystack.isEmpty then false
  else if !needle.valid then haystack.hasNulls
  else dispatched

/-- A boolean output column: payload bits plus validity bits (null mask). -/
structure BoolColumn where
  payload : List Bool
  validity : List Bool
deriving DecidableEq, Repr

/-- Modelled from the spec: the flat value multiset built by
`unordered_multiset<Type>::create(haystack)` (its source `hash/unordered_multiset.cuh`
is not part of this excerpt).  Per spec section 4.4 it provides a pure
set-membership test over the haystack's elements. -/
def multisetContains (haystack : LeafColumn) (v : Int) : Bool :=
  haystack.elems.any (fun e => e.valid && e.val == v)

/-- `multi_contains_dispatch::operator()` for non-nested types, from
`search/contains.cu`: the result column is sized to the needles with the
needles' null mask copied; empty needles return immediately; an empty haystack
fills the payload with `false`; otherwise each needle row is tested against
the haystack multiset, with null needle rows reported as contained. -/
def multiContainsDispatch (haystack needles : LeafColumn) : BoolColumn :=
  if needles.isEmpty then ⟨[], needles.elems.map (fun e => e.valid)⟩
  else if haystack.isEmpty then
    ⟨List.replicate needles.size false, needles.elems.map (fun e => e.valid)⟩
  else if needles.hasNulls then
    ⟨needles.elems.map (fun e => !e.valid || multisetContains haystack e.val),
     needles.elems.map (fun e => e.valid)⟩
  else
    ⟨needles.elems.map (fun e => multisetContains haystack e.val),
     needles.elems.map (fun e => e.valid)⟩

/-- `NOT_FOUND_IDX` from `lists/contains.cu`. -/
def NOT_FOUND_IDX : Int := -1

/-- `duplicate_find_option`: tie-break direction for list search. -/
inductive FindOption
  | FIND_FIRST
  | FIND_LAST
deriving DecidableEq, Repr

/-- `thrust::find_if` over a sequence of child-row indices, returning the
iterator distance from `begin` to the first index satisfying the predicate,
or `none` when the scan reaches `end`. -/
def findIfPos (p : Nat → Bool) : List Nat → Option Nat
  | [] => none
  | x :: xs => if p x then some 0 else (findIfPos p xs).map (fun n => n + 1)

/-- The sequence of child-row indices visited between `list_begin` and
`list_end` (lists/contains.cu): counting iterators over
`[offsets[i], offsets[i+1])`, reversed for FIND_LAST. -/
def listIter (offsets : List Nat) (listIdx : Nat) (opt : FindOption) : List Nat :=
  let b := offsets.getD listIdx 0
  let e := offsets.getD (listIdx + 1) 0
  let fwd := (List.range (e - b)).map (fun k => b + k)
  match opt with
  | .FIND_FIRST => fwd
  | .FIND_LAST => fwd.reverse

/-- `distance(begin, end, found_iter)` (lists/contains.cu): NOT_FOUND when the
scan exhausted, else `found - begin` for FIND_FIRST and `end - found - 1` for
FIND_LAST, expressed via the iterator position `pos = found - begin` and the
sequence length `len = end - begin`. -/
def distanceOf (opt : FindOption) (len : Nat) (found : Option Nat) : Int :=
  match found with
  | none => NOT_FOUND_IDX
  | some pos =>
    match opt with
    | .FIND_FIRST => (pos : Int)
    | .FIND_LAST => (len : Int) - (pos : Int) - 1

/-- The element predicate inside `search_functor::operator()`: the element at a
child-row index matches when it is valid (or the child column has no nulls at
all) and compares equal to the search key. -/
def matchesAt (child : List Elem) (childNulls : Bool) (idx : Nat) (key : Int) : Bool :=
  let e := child.getD idx ⟨0, true⟩
  (!childNulls || e.valid) && e.val == key

/-- `search_functor` for non-struct element types (lists/contains.cu): scan the
list's child sub-range in the direction of the find option and convert the
found iterator to a within-list index with `distance`. -/
def searchList (child : List Elem) (childNulls : Bool) (offsets : List Nat)
    (listIdx : Nat) (key : Int) (opt : FindOption) : Int :=
  distanceOf opt (listIter offsets listIdx opt).length
    (findIfPos (fun idx => matchesAt child childNulls idx key) (listIter offsets listIdx opt))

/-- A lists column: per-row validity (null mask), the offsets child of length
`size+1`, and the flattened element child column. -/
structure ListsCol where
  rowValid : List Bool
  offsets : List Nat
  child : List Elem
deriving DecidableEq, Repr

/-- Number of list rows. -/
def ListsCol.size (c : ListsCol) : Nat := c.rowValid.length

/-- `lists.has_nulls()`: some list row is null. -/
def ListsCol.hasNulls (c : ListsCol) : Bool := c.rowValid.any (fun b => !b)

/-- `lists.child().has_nulls()`: some child element is null. -/
def ListsCol.childHasNulls (c : ListsCol) : Bool := c.child.any (fun e => !e.valid)

/-- `list_device_view::size()` of row `i`: `offsets[i+1] - offsets[i]`. -/
def ListsCol.listLen (c : ListsCol) (i : Nat) : Nat :=
  c.offsets.getD (i + 1) 0 - c.offsets.getD i 0

/-- The elements of list row `i`: the child sub-range `[offsets[i], offsets[i+1])`. -/
def ListsCol.listElems (c : ListsCol) (i : Nat) : List Elem :=
  (c.child.drop (c.offsets.getD i 0)).take (c.listLen i)

/-- A search key per list row: `none` models an invalid key (a null scalar
broadcast to all rows, or a null entry of a row-aligned key column). -/
abbrev KeyList := List (Option Int)

/-- The per-row lambda of `search_all_lists` (lists/contains.cu): a null search
key or a null list row short-circuits to `(NOT_FOUND_IDX, invalid)` resp.
`(NOT_FOUND_IDX, valid := false)`; otherwise the child sub-range is scanned by
`search_functor` and the row is valid. -/
def searchAllListsRow (c : ListsCol) (keys : KeyList) (opt : FindOption)
    (i : Nat) : Int × Bool :=
  if keys.any Option.isNone && !(keys.getD i none).isSome then (NOT_FOUND_IDX, false)
  else if !(c.rowValid.getD i true) then (NOT_FOUND_IDX, false)
  else (searchList c.child c.childHasNulls c.offsets i ((keys.getD i none).getD 0) opt, true)

/-- The tabulation of `lookup_functor::operator()` for non-struct element types
(lists/contains.cu): positions and per-row validity over all list rows; the
null mask is attached by `valid_if` over the computed validity only when the
keys, the lists or the child elements have nulls, and is otherwise left
unallocated (all rows valid). -/
def indexOfCol (c : ListsCol) (keys : KeyList) (opt : FindOption) :
    List Int × List Bool :=
  (((List.range c.size).map (searchAllListsRow c keys opt)).map (fun r => r.1),
   if keys.any Option.isNone || c.hasNulls || c.childHasNulls then
     ((List.range c.size).map (searchAllListsRow c keys opt)).map (fun r => r.2)
   else List.replicate c.size true)

/-- `to_contains` (lists/contains.cu): BOOL8 payload `position != NOT_FOUND_IDX`
per row, with the null mask released from the positions column and set on the
result verbatim. -/
def toContains (keyPositions : List Int × List Bool) : BoolColumn :=
  ⟨keyPositions.1.map (fun i => !(i == NOT_FOUND_IDX)), keyPositions.2⟩

/-- `cudf::lists::detail::contains` (lists/contains.cu): `index_of` with
FIND_FIRST, post-composed with `to_contains`. -/
def containsCol (c : ListsCol) (keys : KeyList) : BoolColumn :=
  toContains (indexOfCol c keys FindOption.FIND_FIRST)

/-- `cudf::lists::detail::contains_nulls` (lists/contains.cu): payload row `i`
is `list.is_null() || any_of(0 .. list.size(), j => list.is_null(j))`; the
output null mask marks row `i` valid iff the list row itself is valid. -/
def containsNullsCol (c : ListsCol) : BoolColumn :=
  ⟨(List.range c.size).map (fun i =>
      !(c.rowValid.getD i true) ||
        (List.range (c.listLen i)).any (fun j =>
          !((c.child.getD (c.offsets.getD i 0 + j) ⟨0, true⟩).valid))),
   (List.range c.size).map (fun i => c.rowValid.getD i true)⟩

/-- cudf data types, as far as the list-search entry validations inspect them. -/
inductive DType
  | int32
  | stringT
  | empty
  | listT (c : DType)
  | structT (fs : List DType)

mutual

/-- Structural equality test on data types (`data_type::operator==`). -/
def DType.beq : DType → DType → Bool
  | .int32, .int32 => true
  | .stringT, .stringT => true
  | .empty, .empty => true
  | .listT a, .listT b => DType.beq a b
  | .structT fs, .structT gs => DType.beqList fs gs
  | _, _ => false

/-- Pointwise structural equality of data-type lists. -/
def DType.beqList : List DType → List DType → Bool
  | [], [] => true
  | x :: xs, y :: ys => DType.beq x y && DType.beqList xs ys
  | _, _ => false

end

instance : BEq DType := ⟨DType.beq⟩

/-- `cudf::is_nested`: LIST or STRUCT. -/
def DType.isNested : DType → Bool
  | .listT _ => true
  | .structT _ => true
  | _ => false

/-- `type_id::STRUCT` test. -/
def DType.isStruct : DType → Bool
  | .structT _ => true
  | _ => false

/-- The entry validations of `lookup_functor::operator()` together with the
search-key size check of the column-key `cudf::lists::detail::index_of`
overload (lists/contains.cu), in source order: each `CUDF_EXPECTS` raises
before any per-row computation. -/
def lookupChecks (childType keyType : DType) (keyIsScalar : Bool)
    (keySize listsSize : Nat) : Except String Unit :=
  if !keyIsScalar && keySize != listsSize then
    Except.error "Number of search keys must match list column size."
  else if childType.isNested && !childType.isStruct then
    Except.error "Nested types except STRUCT are not supported in list search operations."
  else if childType != keyType then
    Except.error "Type/Scale of search key does not match list column element type."
  else if keyType == DType.empty then
    Except.error "Type cannot be empty."
  else Except.ok ()

/-- `index_of` at the API level: entry checks first, then the tabulated
result; a failed check produces no partial result. -/
def indexOfChecked (childType keyType : DType) (keyIsScalar : Bool)
    (c : ListsCol) (keys : KeyList) (opt : FindOption) :
    Except String (List Int × List Bool) :=
  match lookupChecks childType keyType keyIsScalar keys.length c.size with
  | .error msg => .error msg
  | .ok _ => .ok (indexOfCol c keys opt)

/-- `contains` at the API level (lists/contains.cu): forwards to `index_of`
with FIND_FIRST and post-composes with `to_contains`, so entry failures
propagate and produce no partial result. -/
def containsChecked (childType keyType : DType) (keyIsScalar : Bool)
    (c : ListsCol) (keys : KeyList) : Except String BoolColumn :=
  match indexOfChecked childType keyType keyIsScalar c keys FindOption.FIND_FIRST with
  | .error msg => .error msg
  | .ok r => .ok (toContains r)

/-- Modelled from the spec: a logical row value of a possibly nested column
(spec section 3).  The recursive Row Equality Comparator and Row Hasher live in
`cudf/table/experimental/row_operators.cuh`, which is not part of this source
excerpt (only their callers are), so rows, comparator and hasher are
reconstructed from spec sections 4.1 and 4.2. -/
inductive RowVal
  | null
  | intv (v : Int)
  | listv (xs : List RowVal)
  | structv (fs : List RowVal)

/-- Null-equality policy (spec glossary): whether two nulls compare equal. -/
inductive NullPolicy
  | nullsEqual
  | nullsUnequal
deriving DecidableEq, Repr

mutual

/-- Modelled from the spec: the recursive Row Equality Comparator (section 4.1):
two nulls compare per the null policy, null against non-null is unequal, leaves
compare by value, LIST rows compare by equal length plus pointwise-equal
children, STRUCT rows by field count plus pointwise-equal fields. -/
def rowEqual (pol : NullPolicy) : RowVal → RowVal → Bool
  | .null, .null => pol == NullPolicy.nullsEqual
  | .null, _ => false
  | _, .null => false
  | .intv a, .intv b => a == b
  | .listv xs, .listv ys => xs.length == ys.length && rowsEqual pol xs ys
  | .structv fs, .structv gs => fs.length == gs.length && rowsEqual pol fs gs
  | _, _ => false

/-- Pointwise equality of child sequences (spec section 4.1, LIST/STRUCT). -/
def rowsEqual (pol : NullPolicy) : List RowVal → List RowVal → Bool
  | [], [] => true
  | x :: xs, y :: ys => rowEqual pol x y && rowsEqual pol xs ys
  | _, _ => false

end

/-- Modelled from the spec: the order-sensitive hash combine of section 4.2
("multiply-and-add on a seed"), truncated to the 32-bit hash width. -/
def hashCombine (seed h : Nat) : Nat := (seed * 31 + h) % 2 ^ 32

/-- Modelled from the spec: the fixed sentinel hash substituted for null
elements (section 4.2). -/
def NULL_HASH : Nat := 2863311530

mutual

/-- Modelled from the spec: the recursive Row Hasher (section 4.2): a null
hashes to the fixed sentinel, a leaf hashes its value, LIST and STRUCT rows
combine their child hashes order-sensitively from a fixed seed. -/
def rowHash : RowVal → Nat
  | .null => NULL_HASH
  | .intv v => (v % (2 ^ 32 : Int)).toNat
  | .listv xs => rowsHash 17 xs
  | .structv fs => rowsHash 19 fs

/-- Fold child hashes into a running seed, order-sensitively (section 4.2). -/
def rowsHash (seed : Nat) : List RowVal → Nat
  | [] => seed
  | x :: xs => rowsHash (hashCombine seed (rowHash x)) xs

end

/-- Modelled from the spec: the hash-table probe of the batched nested
containment engine (`multi_contains_nested_elements`): every haystack row index
is inserted keyed by its row hash, and a needle row is reported contained iff
some inserted haystack row has an equal row hash and the full comparator
confirms row equality (spec section 4.4). -/
def hashProbeContains (haystack : List RowVal) (pol : NullPolicy)
    (needle : RowVal) : Bool :=
  haystack.any (fun h => rowHash h == rowHash needle && rowEqual pol h needle)

/-- `copy_bitmask` of a nested column whose rows are `RowVal`s: the per-row
top-level validity list (a top-level null row is `RowVal.null`). -/
def nestedMask (rows : List RowVal) : List Bool :=
  rows.map (fun r => match r with | .null => false | _ => true)

/-- `multi_contains_nested_elements` (search/detail/contains_nested.cu): the
result is sized to the needles with the needles' null mask copied through;
empty needles return immediately; an empty haystack fills the payload with
`false`; otherwise every needle row probes the haystack hash index. -/
def multiContainsNested (haystack needles : List RowVal) : BoolColumn :=
  if needles.isEmpty then ⟨[], nestedMask needles⟩
  else if haystack.isEmpty then
    ⟨List.replicate needles.length false, nestedMask needles⟩
  else ⟨needles.map (hashProbeContains haystack NullPolicy.nullsEqual), nestedMask needles⟩

/-! ### Helper lemmas -/

theorem getD_map_range {α : Type} (f : Nat → α) {n i : Nat} (hi : i < n) (d : α) :
    ((List.range n).map f).getD i d = f i := by
  rw [List.getD_eq_getElem?_getD, List.getElem?_map, List.getElem?_range hi]
  rfl

theorem findIfPos_none_iff (p : Nat → Bool) (xs : List Nat) :
    findIfPos p xs = none ↔ ∀ x ∈ xs, p x = false := by
  induction xs with
  | nil => simp [findIfPos]
  | cons x xs ih =>
    by_cases h : p x
    · simp [findIfPos, h]
    · rw [findIfPos, if_neg h, Option.map_eq_none', ih]
      constructor
      · intro hall y hy
        rcases List.mem_cons.mp hy with rfl | hy'
        · exact Bool.eq_false_iff.mpr h
        · exact hall y hy'
      · intro hall y hy
        exact hall y (List.mem_cons_of_mem x hy)

theorem findIfPos_some_iff (p : Nat → Bool) (xs : List Nat) (n : Nat) :
    findIfPos p xs = some n ↔
      n < xs.length ∧ p (xs.getD n 0) = true ∧ ∀ m, m < n → p (xs.getD m 0) = false := by
  induction xs generalizing n with
  | nil => simp [findIfPos]
  | cons x xs ih =>
    by_cases h : p x
    · simp only [findIfPos, h, if_true]
      constructor
      · rintro hn
        have : n = 0 := by
          have := Option.some.inj hn
          omega
        subst this
        refine ⟨by simp, by simpa using h, by omega⟩
      · rintro ⟨_, _, hmin⟩
        rcases Nat.eq_zero_or_pos n with rfl | hpos
        · rfl
        · exact absurd h (by simpa using (Bool.eq_false_iff.mp (hmin 0 hpos)))
    · simp only [findIfPos, h, if_false]
      constructor
      · intro hn
        rcases Option.map_eq_some'.mp hn with ⟨k, hk, rfl⟩
        obtain ⟨hlen, hq, hmin⟩ := (ih k).mp hk
        refine ⟨by simpa using Nat.succ_lt_succ hlen, by simpa using hq, ?_⟩
        intro m hm
        cases m with
        | zero => simpa using h
        | succ m' => simpa using hmin m' (by omega)
      · rintro ⟨hlen, hq, hmin⟩
        cases n with
        | zero => exact absurd (by simpa using hq) h
        | succ k =>
          have : findIfPos p xs = some k := by
            refine (ih k).mpr ⟨by simpa using hlen, by simpa using hq, ?_⟩
            intro m hm
            simpa using hmin (m + 1) (by omega)
          simp [this]

/-- The scan length of a list row: `offsets[i+1] - offsets[i]`. -/
def scanLen (offsets : List Nat) (i : Nat) : Nat :=
  offsets.getD (i + 1) 0 - offsets.getD i 0

/-- Whether the element at within-list position `k` of list row `i` matches. -/
def matchQ (child : List Elem) (childNulls : Bool) (offsets : List Nat)
    (i : Nat) (key : Int) (k : Nat) : Bool :=
  matchesAt child childNulls (offsets.getD i 0 + k) key

theorem listIter_first_getD (offsets : List Nat) (i : Nat) {m : Nat}
    (hm : m < scanLen offsets i) :
    (listIter offsets i FindOption.FIND_FIRST).getD m 0 = offsets.getD i 0 + m := by
  unfold listIter
  exact getD_map_range _ hm 0

theorem listIter_length (offsets : List Nat) (i : Nat) (opt : FindOption) :
    (listIter offsets i opt).length = scanLen offsets i := by
  unfold listIter scanLen
  cases opt <;> simp

theorem getD_rev_range {α : Type} (f : Nat → α) {n m : Nat} (hm : m < n) (d : α) :
    (((List.range n).map f).reverse).getD m d = f (n - 1 - m) := by
  rw [List.getD_eq_getElem?_getD, List.getElem?_reverse (by simpa using hm)]
  simp only [List.length_map, List.length_range]
  rw [List.getElem?_map, List.getElem?_range (by omega)]
  rfl

theorem listIter_last_getD (offsets : List Nat) (i : Nat) {m : Nat}
    (hm : m < scanLen offsets i) :
    (listIter offsets i FindOption.FIND_LAST).getD m 0 =
      offsets.getD i 0 + (scanLen offsets i - 1 - m) := by
  exact getD_rev_range (fun k => offsets.getD i 0 + k)
    (show m < offsets.getD (i + 1) 0 - offsets.getD i 0 from hm) 0

theorem searchList_absent (child : List Elem) (childNulls : Bool)
    (offsets : List Nat) (i : Nat) (key : Int) (opt : FindOption)
    (h : ∀ k, k < scanLen offsets i → matchQ child childNulls offsets i key k = false) :
    searchList child childNulls offsets i key opt = NOT_FOUND_IDX := by
  have hnone : findIfPos (fun idx => matchesAt child childNulls idx key)
      (listIter offsets i opt) = none := by
    rw [findIfPos_none_iff]
    intro x hx
    have hx' : ∃ k, k < scanLen offsets i ∧ offsets.getD i 0 + k = x := by
      unfold listIter at hx
      cases opt with
      | FIND_FIRST =>
        simp only [List.mem_map, List.mem_range] at hx
        obtain ⟨k, hk, rfl⟩ := hx
        exact ⟨k, by simpa [scanLen] using hk, rfl⟩
      | FIND_LAST =>
        simp only [List.mem_reverse, List.mem_map, List.mem_range] at hx
        obtain ⟨k, hk, rfl⟩ := hx
        exact ⟨k, by simpa [scanLen] using hk, rfl⟩
    obtain ⟨k, hk, rfl⟩ := hx'
    exact h k hk
  unfold searchList
  rw [hnone]
  rfl

theorem searchList_found (child : List Elem) (childNulls : Bool)
    (offsets : List Nat) (i : Nat) (key : Int) (opt : FindOption)
    (h : ∃ k, k < scanLen offsets i ∧ matchQ child childNulls offsets i key k = true) :
    ∃ k, k < scanLen offsets i ∧ matchQ child childNulls offsets i key k = true ∧
      searchList child childNulls offsets i key opt = (k : Int) := by
  set p : Nat → Bool := fun idx => matchesAt child childNulls idx key with hp
  have hne : findIfPos p (listIter offsets i opt) ≠ none := by
    intro hnone
    rw [findIfPos_none_iff] at hnone
    obtain ⟨k, hk, hq⟩ := h
    have hmem : offsets.getD i 0 + k ∈ listIter offsets i opt := by
      unfold listIter
      cases opt with
      | FIND_FIRST =>
        simp only [List.mem_map, List.mem_range]
        exact ⟨k, by simpa [scanLen] using hk, rfl⟩
      | FIND_LAST =>
        simp only [List.mem_reverse, List.mem_map, List.mem_range]
        exact ⟨k, by simpa [scanLen] using hk, rfl⟩
    have := hnone _ hmem
    rw [matchQ] at hq
    simp only [hp] at this
    rw [hq] at this
    exact Bool.true_eq_false.mp this
  obtain ⟨n, hn⟩ := Option.ne_none_iff_exists'.mp hne
  obtain ⟨hlen, hq, -⟩ := (findIfPos_some_iff p _ n).mp hn
  rw [listIter_length] at hlen
  unfold searchList
  rw [hn]
  cases opt with
  | FIND_FIRST =>
    refine ⟨n, hlen, ?_, ?_⟩
    · rw [matchQ, ← listIter_first_getD offsets i hlen]
      exact hq
    · simp [distanceOf, listIter_length]
  | FIND_LAST =>
    refine ⟨scanLen offsets i - 1 - n, by omega, ?_, ?_⟩
    · rw [matchQ, ← listIter_last_getD offsets i hlen]
      exact hq
    · simp only [distanceOf, listIter_length]
      omega

theorem searchList_first_spec (child : List Elem) (childNulls : Bool)
    (offsets : List Nat) (i : Nat) (key : Int) (k : Nat)
    (hk : k < scanLen offsets i)
    (hq : matchQ child childNulls offsets i key k = true)
    (hmin : ∀ m, m < k → matchQ child childNulls offsets i key m = false) :
    searchList child childNulls offsets i key FindOption.FIND_FIRST = (k : Int) := by
  set p : Nat → Bool := fun idx => matchesAt child childNulls idx key with hp
  have hsome : findIfPos p (listIter offsets i FindOption.FIND_FIRST) = some k := by
    rw [findIfPos_some_iff]
    refine ⟨by rw [listIter_length]; exact hk, ?_, ?_⟩
    · rw [listIter_first_getD offsets i hk]
      exact hq
    · intro m hm
      rw [listIter_first_getD offsets i (by omega)]
      exact hmin m hm
  unfold searchList
  rw [hsome]
  rfl

theorem searchList_last_spec (child : List Elem) (childNulls : Bool)
    (offsets : List Nat) (i : Nat) (key : Int) (k : Nat)
    (hk : k < scanLen offsets i)
    (hq : matchQ child childNulls offsets i key k = true)
    (hmax : ∀ m, m < scanLen offsets i → k < m →
      matchQ child childNulls offsets i key m = false) :
    searchList child childNulls offsets i key FindOption.FIND_LAST = (k : Int) := by
  set p : Nat → Bool := fun idx => matchesAt child childNulls idx key with hp
  set len := scanLen offsets i with hlen
  have hsome : findIfPos p (listIter offsets i FindOption.FIND_LAST)
      = some (len - 1 - k) := by
    rw [findIfPos_some_iff]
    refine ⟨by rw [listIter_length]; omega, ?_, ?_⟩
    · rw [listIter_last_getD offsets i (by omega)]
      have : len - 1 - (len - 1 - k) = k := by omega
      rw [← hlen, this]
      exact hq
    · intro m hm
      rw [listIter_last_getD offsets i (by omega)]
      rw [← hlen]
      exact hmax (len - 1 - m) (by omega) (by omega)

  unfold searchList
  rw [hsome]
  simp only [distanceOf, listIter_length, ← hlen]
  omega

theorem getD_map_of_lt {α β : Type} (f : α → β) (l : List α) {i : Nat}
    (hi : i < l.length) (d : α) (d' : β) :
    (l.map f).getD i d' = f (l.getD i d) := by
  rw [List.getD_eq_getElem?_getD, List.getElem?_map,
    List.getElem?_eq_getElem hi, List.getD_eq_getElem?_getD,
    List.getElem?_eq_getElem hi]
  rfl

theorem indexOfCol_pos_getD (c : ListsCol) (keys : KeyList) (opt : FindOption)
    {i : Nat} (hi : i < c.size) :
    (indexOfCol c keys opt).1.getD i 0 = (searchAllListsRow c keys opt i).1 := by
  show (((List.range c.size).map (searchAllListsRow c keys opt)).map
    (fun r => r.1)).getD i 0 = _
  rw [getD_map_of_lt _ _ (by simpa using hi) (NOT_FOUND_IDX, false) 0,
    getD_map_range _ hi]

theorem indexOfCol_val_getD (c : ListsCol) (keys : KeyList) (opt : FindOption)
    {i : Nat} (hi : i < c.size)
    (hflag : (keys.any Option.isNone || c.hasNulls || c.childHasNulls) = true) :
    (indexOfCol c keys opt).2.getD i true = (searchAllListsRow c keys opt i).2 := by
  show (if keys.any Option.isNone || c.hasNulls || c.childHasNulls then
      ((List.range c.size).map (searchAllListsRow c keys opt)).map (fun r => r.2)
    else List.replicate c.size true).getD i true = _
  rw [if_pos hflag,
    getD_map_of_lt _ _ (by simpa using hi) (NOT_FOUND_IDX, false) true,
    getD_map_range _ hi]

theorem listElems_getElem? (c : ListsCol) {i j : Nat} (hj : j < c.listLen i) :
    (c.listElems i)[j]? = c.child[c.offsets.getD i 0 + j]? := by
  unfold ListsCol.listElems
  rw [List.getElem?_take_of_lt hj, List.getElem?_drop]

theorem exists_null_elem_iff (c : ListsCol) (i : Nat) :
    (∃ j, j < c.listLen i ∧
      (c.child.getD (c.offsets.getD i 0 + j) ⟨0, true⟩).valid = false) ↔
    (∃ e ∈ c.listElems i, e.valid = false) := by
  constructor
  · rintro ⟨j, hj, hnull⟩
    by_cases hlt : c.offsets.getD i 0 + j < c.child.length
    · refine ⟨c.child.getD (c.offsets.getD i 0 + j) ⟨0, true⟩, ?_, hnull⟩
      rw [List.mem_iff_getElem?]
      refine ⟨j, ?_⟩
      have hgd : c.child.getD (c.offsets.getD i 0 + j) ⟨0, true⟩
          = c.child[c.offsets.getD i 0 + j] := by
        rw [List.getD_eq_getElem?_getD, List.getElem?_eq_getElem hlt, Option.getD_some]
      rw [listElems_getElem? c hj, List.getElem?_eq_getElem hlt, hgd]
    · exfalso
      rw [List.getD_eq_default _ _ (by omega)] at hnull
      exact Bool.true_eq_false.mp hnull
  · rintro ⟨e, hmem, hnull⟩
    obtain ⟨j, hget⟩ := List.mem_iff_getElem?.mp hmem
    have hj : j < (c.listElems i).length := by
      by_contra hge
      rw [List.getElem?_eq_none_iff.mpr (by omega)] at hget
      exact Option.noConfusion hget
    have hjlen : j < c.listLen i := by
      unfold ListsCol.listElems at hj
      simp only [List.length_take, List.length_drop] at hj
      omega
    refine ⟨j, hjlen, ?_⟩
    rw [listElems_getElem? c hjlen] at hget
    rw [List.getD_eq_getElem?_getD, hget, Option.getD_some, hnull]

mutual

theorem rowEqual_hashEq (pol : NullPolicy) :
    ∀ a b : RowVal, rowEqual pol a b = true → rowHash a = rowHash b
  | .null, .null, _ => rfl
  | .intv x, .intv y, h => by
    have hxy : x = y := by simpa [rowEqual] using h
    rw [hxy]
  | .listv xs, .listv ys, h => by
    have h' : rowsEqual pol xs ys = true := by
      have := (by simpa [rowEqual] using h : xs.length = ys.length ∧ rowsEqual pol xs ys = true)
      exact this.2
    show rowsHash 17 xs = rowsHash 17 ys
    exact rowsEqual_hashEq pol xs ys h' 17
  | .structv fs, .structv gs, h => by
    have h' : rowsEqual pol fs gs = true := by
      have := (by simpa [rowEqual] using h : fs.length = gs.length ∧ rowsEqual pol fs gs = true)
      exact this.2
    show rowsHash 19 fs = rowsHash 19 gs
    exact rowsEqual_hashEq pol fs gs h' 19
  | .null, .intv _, h => by simp [rowEqual] at h
  | .null, .listv _, h => by simp [rowEqual] at h
  | .null, .structv _, h => by simp [rowEqual] at h
  | .intv _, .null, h => by simp [rowEqual] at h
  | .listv _, .null, h => by simp [rowEqual] at h
  | .structv _, .null, h => by simp [rowEqual] at h
  | .intv _, .listv _, h => by simp [rowEqual] at h
  | .intv _, .structv _, h => by simp [rowEqual] at h
  | .listv _, .intv _, h => by simp [rowEqual] at h
  | .listv _, .structv _, h => by simp [rowEqual] at h
  | .structv _, .intv _, h => by simp [rowEqual] at h
  | .structv _, .listv _, h => by simp [rowEqual] at h

theorem rowsEqual_hashEq (pol : NullPolicy) :
    ∀ xs ys : List RowVal, rowsEqual pol xs ys = true →
      ∀ seed : Nat, rowsHash seed xs = rowsHash seed ys
  | [], [], _, _ => rfl
  | x :: xs, y :: ys, h, seed => by
    have h' : rowEqual pol x y = true ∧ rowsEqual pol xs ys = true := by
      simpa [rowsEqual] using h
    show rowsHash (hashCombine seed (rowHash x)) xs
      = rowsHash (hashCombine seed (rowHash y)) ys
    rw [rowEqual_hashEq pol x y h'.1]
    exact rowsEqual_hashEq pol xs ys h'.2 _
  | [], _ :: _, h, _ => by simp [rowsEqual] at h
  | _ :: _, [], h, _ => by simp [rowsEqual] at h

end

/-! ### Claim theorems -/

/-- C1: for any two rows, if the Row Equality Comparator under a given null
policy reports them equal then the Row Hasher reports equal hashes under the
same policy; consequently the hash-table-backed batched containment (insert
haystack rows keyed by row hash, probe each needle row with hash plus full
comparator) never yields a false negative for a needle row that equals some
haystack row. -/
theorem hash_equality_consistency (pol : NullPolicy) :
    (∀ r1 r2 : RowVal, rowEqual pol r1 r2 = true → rowHash r1 = rowHash r2) ∧
    (∀ (haystack : List RowVal) (needle : RowVal),
      (∃ r ∈ haystack, rowEqual pol r needle = true) →
      hashProbeContains haystack pol needle = true) := by
  refine ⟨rowEqual_hashEq pol, ?_⟩
  rintro haystack needle ⟨r, hmem, heq⟩
  rw [hashProbeContains, List.any_eq_true]
  refine ⟨r, hmem, ?_⟩
  rw [rowEqual_hashEq pol r needle heq, heq]
  simp

/-- C1 witness: a nested struct row containing a null hashes consistently with
itself under the EQUAL policy, and a probe for a needle equal to a haystack
row reports containment. -/
theorem hash_equality_consistency_witness :
    rowHash (RowVal.structv [RowVal.null, RowVal.intv 3])
      = rowHash (RowVal.structv [RowVal.null, RowVal.intv 3]) ∧
    hashProbeContains [RowVal.structv [RowVal.null], RowVal.listv [RowVal.intv 2]]
      NullPolicy.nullsEqual (RowVal.listv [RowVal.intv 2]) = true := by
  constructor
  · exact (hash_equality_consistency NullPolicy.nullsEqual).1 _ _
      (by simp [rowEqual, rowsEqual])
  · exact (hash_equality_consistency NullPolicy.nullsEqual).2 _ _
      ⟨RowVal.listv [RowVal.intv 2], by simp, by simp [rowEqual, rowsEqual]⟩

/-- C2: scalar contains returns false on an empty haystack, and for an invalid
(null) needle returns true exactly when the haystack has null entries; both
outcomes are independent of the type-dispatched row scan (`dispatched`). -/
theorem contains_scalar_entry (haystack : LeafColumn) (needle : ScalarVal)
    (dispatched : Bool) :
    (haystack.isEmpty = true → containsScalar haystack needle dispatched = false) ∧
    (needle.valid = false →
      containsScalar haystack needle dispatched = haystack.hasNulls) := by
  constructor
  · intro h
    rw [containsScalar, if_pos h]
  · intro h
    by_cases he : haystack.isEmpty = true
    · have hnil : haystack.elems = [] := by
        rwa [LeafColumn.isEmpty, List.isEmpty_iff] at he
      rw [containsScalar, if_pos he, LeafColumn.hasNulls, hnil]
      rfl
    · rw [containsScalar, if_neg he, h]
      rfl

/-- C2 witness: a null needle over a haystack with a null returns true, and an
empty haystack returns false, whatever the dispatched scan would say. -/
theorem contains_scalar_entry_witness :
    containsScalar ⟨[⟨1, false⟩]⟩ ⟨0, false⟩ false = true ∧
    containsScalar ⟨[]⟩ ⟨5, true⟩ true = false := by
  constructor
  · exact ((contains_scalar_entry ⟨[⟨1, false⟩]⟩ ⟨0, false⟩ false).2 rfl).trans rfl
  · exact (contains_scalar_entry ⟨[]⟩ ⟨5, true⟩ true).1 rfl

/-- C3: boundary cases of batched contains, on both the non-nested dispatch
path and the nested hash-index path: empty needles yield an empty bool column
with zero rows; non-empty needles over an empty haystack yield an all-false
payload sized to the needles with the needles' null mask copied through. -/
theorem multi_contains_boundaries (haystackL needlesL : LeafColumn)
    (haystackN needlesN : List RowVal) :
    (needlesL.isEmpty = true → multiContainsDispatch haystackL needlesL = ⟨[], []⟩) ∧
    (needlesL.isEmpty = false → haystackL.isEmpty = true →
      multiContainsDispatch haystackL needlesL =
        ⟨List.replicate needlesL.size false, needlesL.elems.map (fun e => e.valid)⟩) ∧
    (needlesN.isEmpty = true → multiContainsNested haystackN needlesN = ⟨[], []⟩) ∧
    (needlesN.isEmpty = false → haystackN.isEmpty = true →
      multiContainsNested haystackN needlesN =
        ⟨List.replicate needlesN.length false, nestedMask needlesN⟩) := by
  refine ⟨?_, ?_, ?_, ?_⟩
  · intro h
    have hnil : needlesL.elems = [] := by
      rwa [LeafColumn.isEmpty, List.isEmpty_iff] at h
    rw [multiContainsDispatch, if_pos h, hnil]
    rfl
  · intro h1 h2
    rw [multiContainsDispatch, if_neg (by simp [h1]), if_pos h2]
  · intro h
    have hnil : needlesN = [] := List.isEmpty_iff.mp h
    rw [multiContainsNested, if_pos h, hnil]
    rfl
  · intro h1 h2
    rw [multiContainsNested, if_neg (by simp [h1]), if_pos h2]

/-- C3 witness: the four boundary cases at concrete columns. -/
theorem multi_contains_boundaries_witness :
    multiContainsDispatch ⟨[⟨1, true⟩]⟩ ⟨[]⟩ = ⟨[], []⟩ ∧
    multiContainsDispatch ⟨[]⟩ ⟨[⟨2, true⟩, ⟨0, false⟩]⟩ = ⟨[false, false], [true, false]⟩ ∧
    multiContainsNested [RowVal.intv 1] [] = ⟨[], []⟩ ∧
    multiContainsNested [] [RowVal.intv 2, RowVal.null] = ⟨[false, false], [true, false]⟩ := by
  refine ⟨?_, ?_, ?_, ?_⟩
  · exact (multi_contains_boundaries ⟨[⟨1, true⟩]⟩ ⟨[]⟩ [] []).1 rfl
  · exact ((multi_contains_boundaries ⟨[]⟩ ⟨[⟨2, true⟩, ⟨0, false⟩]⟩ [] []).2.1 rfl rfl).trans rfl
  · exact (multi_contains_boundaries ⟨[]⟩ ⟨[]⟩ [RowVal.intv 1] []).2.2.1 rfl
  · exact ((multi_contains_boundaries ⟨[]⟩ ⟨[]⟩ []
      [RowVal.intv 2, RowVal.null]).2.2.2 rfl rfl).trans rfl

/-- C8 counterexample: with an empty haystack the payload at a null needle row
is false, so the payload is not independent of the haystack's contents. -/
theorem null_needle_payload_ce :
    (multiContainsDispatch ⟨[]⟩ ⟨[⟨0, false⟩]⟩).payload = [false] := by
  rfl

/-- C8 (amended): in the batched contains over non-nested element types, when
the haystack is non-empty, the payload at every null needle row is true,
independent of which elements the haystack holds. -/
theorem null_needle_payload_true (haystack needles : LeafColumn)
    (hne : haystack.isEmpty = false) (i : Nat) (hi : i < needles.size)
    (hnull : (needles.elems.getD i ⟨0, true⟩).valid = false) :
    (multiContainsDispatch haystack needles).payload.getD i false = true := by
  have hnn : needles.isEmpty = false := by
    rcases h : needles.elems with _ | ⟨e, es⟩
    · rw [LeafColumn.size, h] at hi
      exact absurd hi (by simp)
    · rw [LeafColumn.isEmpty, h]
      rfl
  have hmem : needles.elems.getD i ⟨0, true⟩ ∈ needles.elems := by
    rw [List.getD_eq_getElem?_getD, List.getElem?_eq_getElem hi, Option.getD_some]
    exact List.getElem_mem hi
  have hnulls : needles.hasNulls = true := by
    rw [LeafColumn.hasNulls, List.any_eq_true]
    exact ⟨_, hmem, by rw [hnull]; rfl⟩
  rw [multiContainsDispatch, if_neg (by simp [hnn]), if_neg (by simp [hne]),
    if_pos hnulls]
  show (needles.elems.map
    (fun e => !e.valid || multisetContains haystack e.val)).getD i false = true
  rw [getD_map_of_lt _ _ hi ⟨0, true⟩ false, hnull]
  rfl

/-- C8 witness: a null needle row over a non-empty haystack has payload true. -/
theorem null_needle_payload_true_witness :
    (multiContainsDispatch ⟨[⟨7, true⟩]⟩ ⟨[⟨0, false⟩]⟩).payload.getD 0 false = true :=
  null_needle_payload_true ⟨[⟨7, true⟩]⟩ ⟨[⟨0, false⟩]⟩ rfl 0 (by decide) rfl

/-- C4: per-row semantics of index_of: payload NOT_FOUND (-1) for a null
search key row, for a null list row, and for an absent key; a matching
within-list zero-based position for a present key; and the output row is
marked null whenever the search key is invalid. -/
theorem index_of_per_row (c : ListsCol) (keys : KeyList) (opt : FindOption)
    (i : Nat) (hi : i < c.size) (hk : keys.length = c.size) :
    (keys.getD i none = none →
      (indexOfCol c keys opt).1.getD i 0 = NOT_FOUND_IDX ∧
      (indexOfCol c keys opt).2.getD i true = false) ∧
    (c.rowValid.getD i true = false →
      (indexOfCol c keys opt).1.getD i 0 = NOT_FOUND_IDX) ∧
    (∀ v : Int, keys.getD i none = some v → c.rowValid.getD i true = true →
      (∀ m, m < scanLen c.offsets i →
        matchQ c.child c.childHasNulls c.offsets i v m = false) →
      (indexOfCol c keys opt).1.getD i 0 = NOT_FOUND_IDX) ∧
    (∀ v : Int, keys.getD i none = some v → c.rowValid.getD i true = true →
      (∃ m, m < scanLen c.offsets i ∧
        matchQ c.child c.childHasNulls c.offsets i v m = true) →
      ∃ k, k < scanLen c.offsets i ∧
        matchQ c.child c.childHasNulls c.offsets i v k = true ∧
        (indexOfCol c keys opt).1.getD i 0 = (k : Int)) := by
  have hpos := indexOfCol_pos_getD c keys opt hi
  refine ⟨?_, ?_, ?_, ?_⟩
  · intro hnone
    have hi' : i < keys.length := by rw [hk]; exact hi
    have hgd : keys.getD i none = keys[i] := by
      rw [List.getD_eq_getElem?_getD, List.getElem?_eq_getElem hi', Option.getD_some]
    have hki : keys[i] = none := by rw [← hgd]; exact hnone
    have hany : keys.any Option.isNone = true :=
      List.any_eq_true.mpr ⟨none, hki ▸ List.getElem_mem hi', rfl⟩
    have hker : searchAllListsRow c keys opt i = (NOT_FOUND_IDX, false) := by
      rw [searchAllListsRow, if_pos (by rw [hany, hnone]; rfl)]
    constructor
    · rw [hpos, hker]
    · rw [indexOfCol_val_getD c keys opt hi (by rw [hany]; rfl), hker]
  · intro hrow
    by_cases h1 : (keys.any Option.isNone && !(keys.getD i none).isSome) = true
    · have hker : searchAllListsRow c keys opt i = (NOT_FOUND_IDX, false) := by
        rw [searchAllListsRow, if_pos h1]
      rw [hpos, hker]
    · have hker : searchAllListsRow c keys opt i = (NOT_FOUND_IDX, false) := by
        rw [searchAllListsRow, if_neg h1, if_pos (by rw [hrow]; rfl)]
      rw [hpos, hker]
  · intro v hv hrow habsent
    have hker : searchAllListsRow c keys opt i =
        (searchList c.child c.childHasNulls c.offsets i v opt, true) := by
      rw [searchAllListsRow, if_neg (by rw [hv]; simp),
        if_neg (by rw [hrow]; exact Bool.false_ne_true), hv]
      rfl
    rw [hpos, hker]
    exact searchList_absent c.child c.childHasNulls c.offsets i v opt habsent
  · intro v hv hrow hfound
    have hker : searchAllListsRow c keys opt i =
        (searchList c.child c.childHasNulls c.offsets i v opt, true) := by
      rw [searchAllListsRow, if_neg (by rw [hv]; simp),
        if_neg (by rw [hrow]; exact Bool.false_ne_true), hv]
      rfl
    obtain ⟨k, hklen, hq, heq⟩ :=
      searchList_found c.child c.childHasNulls c.offsets i v opt hfound
    refine ⟨k, hklen, hq, ?_⟩
    rw [hpos, hker]
    exact heq

/-- C4 witness: a null key row yields payload -1 and an output row marked
null, at a concrete lists column. -/
theorem index_of_per_row_witness :
    (indexOfCol ⟨[true, false, true], [0, 2, 4, 6],
        [⟨1, true⟩, ⟨2, true⟩, ⟨3, true⟩, ⟨4, true⟩, ⟨5, true⟩, ⟨6, true⟩]⟩
      [none, some 3, some 5] FindOption.FIND_FIRST).1.getD 0 0 = NOT_FOUND_IDX ∧
    (indexOfCol ⟨[true, false, true], [0, 2, 4, 6],
        [⟨1, true⟩, ⟨2, true⟩, ⟨3, true⟩, ⟨4, true⟩, ⟨5, true⟩, ⟨6, true⟩]⟩
      [none, some 3, some 5] FindOption.FIND_FIRST).2.getD 0 true = false :=
  (index_of_per_row _ [none, some 3, some 5] FindOption.FIND_FIRST 0
    (by decide) (by decide)).1 rfl

/-- C5: within a list row, FIND_FIRST returns the lowest matching within-list
index, FIND_LAST the highest, and an absent key yields NOT_FOUND (-1) for
both options. -/
theorem index_of_tie_break (child : List Elem) (childNulls : Bool)
    (offsets : List Nat) (i : Nat) (key : Int) (kf kl : Nat) :
    (kf < scanLen offsets i → matchQ child childNulls offsets i key kf = true →
      (∀ m, m < kf → matchQ child childNulls offsets i key m = false) →
      searchList child childNulls offsets i key FindOption.FIND_FIRST = (kf : Int)) ∧
    (kl < scanLen offsets i → matchQ child childNulls offsets i key kl = true →
      (∀ m, m < scanLen offsets i → kl < m →
        matchQ child childNulls offsets i key m = false) →
      searchList child childNulls offsets i key FindOption.FIND_LAST = (kl : Int)) ∧
    ((∀ m, m < scanLen offsets i → matchQ child childNulls offsets i key m = false) →
      searchList child childNulls offsets i key FindOption.FIND_FIRST = NOT_FOUND_IDX ∧
      searchList child childNulls offsets i key FindOption.FIND_LAST = NOT_FOUND_IDX) :=
  ⟨searchList_first_spec child childNulls offsets i key kf,
   searchList_last_spec child childNulls offsets i key kl,
   fun h => ⟨searchList_absent child childNulls offsets i key FindOption.FIND_FIRST h,
             searchList_absent child childNulls offsets i key FindOption.FIND_LAST h⟩⟩

/-- C5 witness: over list row [1,2,1,3], FIND_FIRST with key 1 gives 0,
FIND_LAST gives 2, and key 5 gives NOT_FOUND. -/
theorem index_of_tie_break_witness :
    searchList [⟨1, true⟩, ⟨2, true⟩, ⟨1, true⟩, ⟨3, true⟩] false [0, 4] 0 1
      FindOption.FIND_FIRST = 0 ∧
    searchList [⟨1, true⟩, ⟨2, true⟩, ⟨1, true⟩, ⟨3, true⟩] false [0, 4] 0 1
      FindOption.FIND_LAST = 2 ∧
    searchList [⟨1, true⟩, ⟨2, true⟩, ⟨1, true⟩, ⟨3, true⟩] false [0, 4] 0 5
      FindOption.FIND_FIRST = NOT_FOUND_IDX := by
  refine ⟨?_, ?_, ?_⟩
  · exact (index_of_tie_break [⟨1, true⟩, ⟨2, true⟩, ⟨1, true⟩, ⟨3, true⟩]
      false [0, 4] 0 1 0 2).1 (by decide) (by decide) (by decide)
  · exact (index_of_tie_break [⟨1, true⟩, ⟨2, true⟩, ⟨1, true⟩, ⟨3, true⟩]
      false [0, 4] 0 1 0 2).2.1 (by decide) (by decide) (by decide)
  · exact ((index_of_tie_break [⟨1, true⟩, ⟨2, true⟩, ⟨1, true⟩, ⟨3, true⟩]
      false [0, 4] 0 5 0 0).2.2 (by decide)).1

/-- C6: the contains_nulls payload at row i is true iff the list row itself is
null or some element within it is null. -/
theorem contains_nulls_payload (c : ListsCol) (i : Nat) (hi : i < c.size) :
    (containsNullsCol c).payload.getD i false = true ↔
      (c.rowValid.getD i true = false ∨ ∃ e ∈ c.listElems i, e.valid = false) := by
  have hmap : (containsNullsCol c).payload.getD i false =
      (!(c.rowValid.getD i true) ||
        (List.range (c.listLen i)).any (fun j =>
          !((c.child.getD (c.offsets.getD i 0 + j) ⟨0, true⟩).valid))) := by
    show ((List.range c.size).map _).getD i false = _
    rw [getD_map_range _ hi false]
  rw [hmap, Bool.or_eq_true, Bool.not_eq_true', List.any_eq_true,
    ← exists_null_elem_iff]
  constructor
  · rintro (h | ⟨j, hjm, hb⟩)
    · exact Or.inl h
    · exact Or.inr ⟨j, List.mem_range.mp hjm, by simpa using hb⟩
  · rintro (h | ⟨j, hj, hb⟩)
    · exact Or.inl h
    · exact Or.inr ⟨j, List.mem_range.mpr hj, by rw [Bool.not_eq_true']; exact hb⟩

/-- C6 witness: for lists [[], null, [1,null], [2]] the payload is
[false, true, true, false], and row 2 is true because of its null element. -/
theorem contains_nulls_payload_witness :
    (containsNullsCol ⟨[true, false, true, true], [0, 0, 0, 2, 3],
        [⟨1, true⟩, ⟨0, false⟩, ⟨2, true⟩]⟩).payload = [false, true, true, false] ∧
    (containsNullsCol ⟨[true, false, true, true], [0, 0, 0, 2, 3],
        [⟨1, true⟩, ⟨0, false⟩, ⟨2, true⟩]⟩).payload.getD 2 false = true := by
  refine ⟨by decide, ?_⟩
  exact (contains_nulls_payload ⟨[true, false, true, true], [0, 0, 0, 2, 3],
      [⟨1, true⟩, ⟨0, false⟩, ⟨2, true⟩]⟩ 2 (by decide)).mpr
    (Or.inr ⟨⟨0, false⟩, by decide, rfl⟩)

/-- C7: lists contains equals index_of with FIND_FIRST post-composed with the
predicate `position != NOT_FOUND`, and carries the same null mask. -/
theorem contains_eq_index_of (c : ListsCol) (keys : KeyList) (i : Nat)
    (hi : i < c.size) :
    ((containsCol c keys).payload.getD i false = true ↔
      (indexOfCol c keys FindOption.FIND_FIRST).1.getD i NOT_FOUND_IDX
        ≠ NOT_FOUND_IDX) ∧
    (containsCol c keys).validity = (indexOfCol c keys FindOption.FIND_FIRST).2 := by
  constructor
  · have hlen : i < (indexOfCol c keys FindOption.FIND_FIRST).1.length := by
      show i < (((List.range c.size).map _).map _).length
      simpa using hi
    show ((indexOfCol c keys FindOption.FIND_FIRST).1.map
      (fun p => !(p == NOT_FOUND_IDX))).getD i false = true ↔ _
    rw [getD_map_of_lt _ _ hlen NOT_FOUND_IDX false, Bool.not_eq_true',
      beq_eq_false_iff_ne]
  · rfl

/-- C7 witness: at a concrete one-row lists column, the equivalence and the
mask equality hold. -/
theorem contains_eq_index_of_witness :
    ((containsCol ⟨[true], [0, 1], [⟨1, true⟩]⟩ [some 1]).payload.getD 0 false = true ↔
      (indexOfCol ⟨[true], [0, 1], [⟨1, true⟩]⟩ [some 1]
        FindOption.FIND_FIRST).1.getD 0 NOT_FOUND_IDX ≠ NOT_FOUND_IDX) ∧
    (containsCol ⟨[true], [0, 1], [⟨1, true⟩]⟩ [some 1]).validity =
      (indexOfCol ⟨[true], [0, 1], [⟨1, true⟩]⟩ [some 1] FindOption.FIND_FIRST).2 :=
  contains_eq_index_of ⟨[true], [0, 1], [⟨1, true⟩]⟩ [some 1] 0 (by decide)

/-- C9: the list-search entry validations reject, before any per-row
computation, a list-of-list element type, a key type different from the list
element type, an EMPTY key type, and a key column row count different from the
lists row count; both index_of and contains then produce an error and no
partial result. -/
theorem list_search_entry_errors (childType keyType : DType) (keyIsScalar : Bool)
    (c : ListsCol) (keys : KeyList) (opt : FindOption)
    (hbad :
      (keyIsScalar = false ∧ keys.length ≠ c.size) ∨
      (childType.isNested = true ∧ childType.isStruct = false) ∨
      (childType == keyType) = false ∨
      (keyType == DType.empty) = true) :
    (∃ msg, indexOfChecked childType keyType keyIsScalar c keys opt
      = .error msg) ∧
    (∃ msg, containsChecked childType keyType keyIsScalar c keys = .error msg) := by
  have hchecks : ∃ msg,
      lookupChecks childType keyType keyIsScalar keys.length c.size
        = .error msg := by
    rw [lookupChecks]
    by_cases h1 : (!keyIsScalar && keys.length != c.size) = true
    · rw [if_pos h1]; exact ⟨_, rfl⟩
    · rw [if_neg h1]
      by_cases h2 : (childType.isNested && !childType.isStruct) = true
      · rw [if_pos h2]; exact ⟨_, rfl⟩
      · rw [if_neg h2]
        by_cases h3 : (childType != keyType) = true
        · rw [if_pos h3]; exact ⟨_, rfl⟩
        · rw [if_neg h3]
          by_cases h4 : (keyType == DType.empty) = true
          · rw [if_pos h4]; exact ⟨_, rfl⟩
          · exfalso
            rcases hbad with ⟨hs, hn⟩ | ⟨hn, hstr⟩ | hne | hemp
            · exact h1 (by simp [hs, hn])
            · exact h2 (by rw [hn, hstr]; rfl)
            · exact h3 (by simp [bne, hne])
            · exact h4 hemp
  obtain ⟨msg, hmsg⟩ := hchecks
  have hidx : ∀ o : FindOption,
      indexOfChecked childType keyType keyIsScalar c keys o = .error msg := by
    intro o
    rw [indexOfChecked, hmsg]
  refine ⟨⟨msg, hidx opt⟩, ⟨msg, ?_⟩⟩
  rw [containsChecked, hidx FindOption.FIND_FIRST]

/-- C9 witness: searching a list-of-list element type is rejected by both
index_of and contains. -/
theorem list_search_entry_errors_witness :
    (∃ msg, indexOfChecked (DType.listT DType.int32) (DType.listT DType.int32)
      true ⟨[], [0], []⟩ [] FindOption.FIND_FIRST = .error msg) ∧
    (∃ msg, containsChecked (DType.listT DType.int32) (DType.listT DType.int32)
      true ⟨[], [0], []⟩ [] = .error msg) :=
  list_search_entry_errors (DType.listT DType.int32) (DType.listT DType.int32)
    true ⟨[], [0], []⟩ [] FindOption.FIND_FIRST (Or.inr (Or.inl ⟨rfl, rfl⟩))

/-- C10: the contains_nulls output null mask marks row i null exactly when the
input list row i itself is null. -/
theorem contains_nulls_mask (c : ListsCol) (i : Nat) (hi : i < c.size) :
    ((containsNullsCol c).validity.getD i true = false ↔
      c.rowValid.getD i true = false) := by
  show ((List.range c.size).map _).getD i true = false ↔ _
  rw [getD_map_range _ hi true]

/-- C10 witness: a null input list row yields a null output row. -/
theorem contains_nulls_mask_witness :
    (containsNullsCol ⟨[true, false], [0, 0, 0], []⟩).validity.getD 1 true = false :=
  (contains_nulls_mask ⟨[true, false], [0, 0, 0], []⟩ 1 (by decide)).mpr rfl

end CudfSearch
